import Mathlib

/-!
Shallow embedding of `commands_schedule.go` from `zumm/resticprofile`:
the schedule reconciliation and dispatch logic (create / remove / status
commands and the run-schedule context rehydration).

External collaborators (the `config` package, the OS scheduler handler and
the elevation retry wrapper) are not part of the source file; they are
modelled at their interface boundary: data structures follow the spec's
data model, handler outcomes and the elevation retry are universally
quantified oracle functions, and calls out to the handler or the
diagnostic sink are recorded as events in a trace.
-/

namespace ResticSchedule

/-! ### Go error values

Go errors built by `errors.New` / `fmt.Errorf`.  `wrapf` models
`fmt.Errorf` with a trailing `%w` verb (the wrapped error is kept for
`errors.Is`); `msgf` models `fmt.Errorf` / `errors.New` without `%w`
(nothing is wrapped).  `errNotFound` models `config.ErrNotFound`. -/
inductive GoError where
  | errNotFound : GoError
  | wrapf : String → GoError → GoError
  | msgf : String → GoError
  | handler : String → GoError
deriving DecidableEq, Repr

/-- Go `errors.Is`: unwraps `%w` chains looking for the target. -/
def errorsIs : GoError → GoError → Bool
  | e@(.wrapf _ inner), target => e == target || errorsIs inner target
  | e, target => e == target

/-- The message carried by a Go error (`Error()` string).
Modelled from the spec: `config.ErrNotFound` renders as "not found". -/
def errMessage : GoError → String
  | .errNotFound => "not found"
  | .wrapf pfx inner => pfx ++ errMessage inner
  | .msgf s => s
  | .handler s => s

/-! ### Data model (spec section 3; the `config` package is an external
collaborator, so these follow the spec's data model). -/

/-- Modelled from the spec: the `(owner name, command)` identity key of a
schedule (`config.ScheduleOrigin`). -/
structure ScheduleOrigin where
  name : String
  command : String
deriving DecidableEq, Repr

/-- Modelled from the spec: the schedule lock mode enum
(`config.ScheduleLockModeDefault` / `config.ScheduleLockModeIgnore`). -/
inductive ScheduleLockMode where
  | lockDefault : ScheduleLockMode
  | lockIgnore : ScheduleLockMode
deriving DecidableEq, Repr

/-- Modelled from the spec: one job definition (`config.Schedule`).
`ignoreOnBattery` is the tri-state {true, false, unset} as `Option Bool`. -/
structure Schedule where
  origin : ScheduleOrigin
  flags : List (String × String)
  log : String
  commandOutput : String
  ignoreOnBatteryLessThan : Int
  ignoreOnBattery : Option Bool
  lockMode : ScheduleLockMode
  lockWait : Int
deriving DecidableEq, Repr

/-- Modelled from the spec: tri-state test `IsStrictlyFalse`. -/
def IsStrictlyFalse (o : Option Bool) : Bool := o == some false

/-- Modelled from the spec: tri-state test `IsTrue`. -/
def IsTrue (o : Option Bool) : Bool := o == some true

/-- Go map assignment for a flag set (used by `Schedule.SetFlag`). -/
def setFlagList (flags : List (String × String)) (k v : String) : List (String × String) :=
  if flags.any (fun p => p.1 == k) then
    flags.map (fun p => if p.1 == k then (k, v) else p)
  else
    flags ++ [(k, v)]

/-- Modelled from the spec: `Schedule.SetFlag` sets a string-keyed job
option on the schedule. -/
def Schedule.SetFlag (s : Schedule) (k v : String) : Schedule :=
  { s with flags := setFlagList s.flags k v }

/-- Modelled from the spec: `Schedule.ScheduleOrigin` accessor. -/
def Schedule.ScheduleOrigin' (s : Schedule) : ScheduleOrigin := s.origin

/-- Modelled from the spec: `Schedule.GetLockMode` accessor. -/
def Schedule.GetLockMode (s : Schedule) : ScheduleLockMode := s.lockMode

/-- Modelled from the spec: `Schedule.GetLockWait` accessor. -/
def Schedule.GetLockWait (s : Schedule) : Int := s.lockWait

/-- Modelled from the spec: a read-only view over a profile or a group —
its kind ("profile" | "group"), its declared schedules (command →
`Schedule` mapping, kept in declaration order), and the full ordered set
of commands that are structurally schedulable for it. -/
structure Schedulable where
  kind : String
  schedules : List (String × Schedule)
  schedulableCommands : List String
deriving DecidableEq, Repr

/-- Lookup of a command in the declared-schedules mapping
(Go `schedulable.Schedules()[command]`). -/
def Schedulable.lookupSchedule (sb : Schedulable) (command : String) : Option Schedule :=
  match sb.schedules.find? (fun p => p.1 == command) with
  | some p => some p.2
  | none => none

instance exceptDecEq {ε α : Type} [DecidableEq ε] [DecidableEq α] :
    DecidableEq (Except ε α) := fun x y =>
  match x, y with
  | .ok a, .ok b =>
    if h : a = b then .isTrue (by rw [h])
    else .isFalse (by intro hh; cases hh; exact h rfl)
  | .error a, .error b =>
    if h : a = b then .isTrue (by rw [h])
    else .isFalse (by intro hh; cases hh; exact h rfl)
  | .ok _, .error _ => .isFalse (by intro hh; cases hh)
  | .error _, .ok _ => .isFalse (by intro hh; cases hh)

/-- Modelled from the spec: the configuration provider interface.
`globalErr` is the error returned by `GetGlobalSection` (none = ok);
profile and group tables map names to the result of loading them (an
entry may itself be a `NotFound` or load error from the config layer). -/
structure Config where
  globalErr : Option GoError
  profiles : List (String × Except GoError Schedulable)
  groups : List (String × Except GoError Schedulable)
deriving DecidableEq, Repr

/-- Modelled from the spec: `Config.HasProfile`. -/
def Config.HasProfile (c : Config) (n : String) : Bool :=
  (c.profiles.find? (fun p => p.1 == n)).isSome

/-- Modelled from the spec: `Config.GetProfile`. -/
def Config.GetProfile (c : Config) (n : String) : Except GoError Schedulable :=
  match c.profiles.find? (fun p => p.1 == n) with
  | some p => p.2
  | none => .error .errNotFound

/-- Modelled from the spec: `Config.HasProfileGroup`. -/
def Config.HasProfileGroup (c : Config) (n : String) : Bool :=
  (c.groups.find? (fun p => p.1 == n)).isSome

/-- Modelled from the spec: `Config.GetProfileGroup`. -/
def Config.GetProfileGroup (c : Config) (n : String) : Except GoError Schedulable :=
  match c.groups.find? (fun p => p.1 == n) with
  | some p => p.2
  | none => .error .errNotFound

/-- Modelled from the spec: `Config.GetProfileNames`. -/
def Config.GetProfileNames (c : Config) : List String := c.profiles.map (fun p => p.1)

/-- Modelled from the spec: `Config.GetGroupNames`. -/
def Config.GetGroupNames (c : Config) : List String := c.groups.map (fun p => p.1)

/-- The scheduler backend configuration is opaque to this core. -/
abbrev SchedulerConfig := Unit

/-- Modelled from the spec: `config.NewDefaultSchedule` — a schedule with
the given origin and scheduler-default (zero) values everywhere else,
synthesized as a removal-only placeholder. -/
def NewDefaultSchedule (_ : Config) (origin : ScheduleOrigin) : Schedule :=
  { origin := origin, flags := [], log := "", commandOutput := "",
    ignoreOnBatteryLessThan := 0, ignoreOnBattery := none,
    lockMode := .lockDefault, lockWait := 0 }

/-! ### Events

Calls out of the core — handler dispatches and diagnostic-sink writes —
are recorded as a trace; their outcomes are supplied by oracle
functions, keeping the handler fully abstract. -/
inductive Event where
  | warning (msg : String)
  | statusHeader (kind name : String)
  | errorLog (e : GoError)
  | scheduleJobs (name : String) (jobs : List Schedule)
  | removeJobs (name : String) (jobs : List Schedule)
  | statusJobs (name : String) (jobs : List Schedule)
  | removeScheduledJobs (profileFilter : String)
  | statusScheduledJobs (profileFilter : String)
  | displayConfigIssues
deriving DecidableEq, Repr

/-- Recognizer for a create-path dispatch to the external handler. -/
def Event.isCreateDispatch : Event → Bool
  | .scheduleJobs _ _ => true
  | _ => false

/-- Recognizer for the current-protocol status call
(`statusScheduledJobs` on the handler's recorded jobs). -/
def Event.isCurrentStatus : Event → Bool
  | .statusScheduledJobs _ => true
  | _ => false

/-- Boolean success test on `Except`. -/
def isOkE {α : Type} : Except GoError α → Bool
  | .ok _ => true
  | .error _ => false

/-! ### Source functions (`commands_schedule.go`) -/

/-- Warning emitted whenever --legacy is used (source line 19). -/
def legacyFlagWarning : String :=
  "the --legacy flag is only temporary and will be removed in version 1.0.0"

/-- Source `getProfileScheduleJobs` (lines 229-239): load the profile,
wrapping a not-found load failure distinctly (with `%w`, so `errors.Is`
still matches) from a generic load failure (also `%w`-wrapped). -/
def getProfileScheduleJobs (c : Config) (profileName : String) :
    Except GoError (Schedulable × List Schedule) :=
  match c.GetProfile profileName with
  | .error e =>
    if errorsIs e .errNotFound then
      .error (.wrapf ("profile \x27" ++ profileName ++ "\x27: ") e)
    else
      .error (.wrapf ("cannot load profile \x27" ++ profileName ++ "\x27: ") e)
  | .ok profile => .ok (profile, profile.schedules.map (fun p => p.2))

/-- Source `getGroupScheduleJobs` (lines 241-251): load the group; a
not-found failure produces a fixed message without `%w` (nothing is
wrapped), a generic load failure is `%w`-wrapped. -/
def getGroupScheduleJobs (c : Config) (profileName : String) :
    Except GoError (Schedulable × List Schedule) :=
  match c.GetProfileGroup profileName with
  | .error e =>
    if errorsIs e .errNotFound then
      .error (.msgf ("group \x27" ++ profileName ++ "\x27 not found"))
    else
      .error (.wrapf ("cannot load group \x27" ++ profileName ++ "\x27: ") e)
  | .ok group => .ok (group, group.schedules.map (fun p => p.2))

/-- Source `getScheduleJobs` (lines 203-227).  The call to
`displayDeprecationNotices` on the profile path only writes to the
diagnostic sink and does not affect control flow or results. -/
def getScheduleJobs (c : Config) (profileName : String) :
    Except GoError (SchedulerConfig × List Schedule × Schedulable) :=
  match c.globalErr with
  | some e => .error (.wrapf "cannot load global section: " e)
  | none =>
    if c.HasProfile profileName then
      match getProfileScheduleJobs c profileName with
      | .error e => .error e
      | .ok (profile, schedules) => .ok ((), schedules, profile)
    else if c.HasProfileGroup profileName then
      match getGroupScheduleJobs c profileName with
      | .error e => .error e
      | .ok (group, schedules) => .ok ((), schedules, group)
    else
      .error (.wrapf ("profile or group \x27" ++ profileName ++ "\x27: ") .errNotFound)

/-- Source `requireScheduleJobs` (lines 253-258). -/
def requireScheduleJobs (schedules : List Schedule) (profileName : String) : Option GoError :=
  if schedules.isEmpty then
    some (.msgf ("no schedule found for profile \x27" ++ profileName ++ "\x27"))
  else
    none

/-- Source `selectProfilesAndGroups` (lines 178-193): with "--all" the
names of all profiles then all groups are gathered; if the gathered list
is empty (no "--all", or an empty configuration) the requested profile
name is the fallback. -/
def selectProfilesAndGroups (c : Config) (profileName : String) (args : List String) :
    List String :=
  let schedulables :=
    if args.contains "--all" then c.GetProfileNames ++ c.GetGroupNames else []
  if schedulables.isEmpty then [profileName] else schedulables

/-- Inner loop of source `getRemovableScheduleJobs` (lines 267-278):
walk `schedulableCommands`, appending a placeholder for every command
with no matching origin in the accumulated schedule list. -/
def addUndeclared (c : Config) (profileName : String) :
    List String → List Schedule → List Schedule
  | [], schedules => schedules
  | command :: rest, schedules =>
    if schedules.any (fun s => s.origin.command == command) then
      addUndeclared c profileName rest schedules
    else
      addUndeclared c profileName rest
        (schedules ++ [NewDefaultSchedule c ⟨profileName, command⟩])

/-- Source `getRemovableScheduleJobs` (lines 260-281). -/
def getRemovableScheduleJobs (c : Config) (profileName : String) :
    Except GoError (SchedulerConfig × List Schedule) :=
  match getScheduleJobs c profileName with
  | .error e => .error e
  | .ok (scheduler, schedules, schedulable) =>
    .ok (scheduler, addUndeclared c profileName schedulable.schedulableCommands schedules)

/-- One entry of the pending list built by the create path
(source lines 30-34, `type profileJobs struct`). -/
structure ProfileJobs where
  schedulerConfig : SchedulerConfig
  name : String
  jobs : List Schedule
deriving DecidableEq, Repr

/-- Step 1 of source `createSchedule` (lines 38-66): resolve every
selected name in order, apply the --no-start / --reload flags, and
collect the pending `(config, name, jobs)` list; the first resolution
failure aborts with that error (an empty job set is skipped instead of
failing when "--all" is set). -/
def collectJobs (c : Config) (args : List String) :
    List String → Except GoError (List ProfileJobs)
  | [] => .ok []
  | profileName :: rest =>
    match getScheduleJobs c profileName with
    | .error e => .error e
    | .ok (scheduler, jobs, _) =>
      match requireScheduleJobs jobs profileName with
      | some e =>
        if args.contains "--all" then collectJobs c args rest else .error e
      | none =>
        let jobs :=
          if args.contains "--no-start" then
            jobs.map (fun j => j.SetFlag "no-start" "") else jobs
        let jobs :=
          if args.contains "--reload" then
            jobs.map (fun j => j.SetFlag "reload" "") else jobs
        match collectJobs c args rest with
        | .error e => .error e
        | .ok acc => .ok ({ schedulerConfig := scheduler, name := profileName, jobs := jobs } :: acc)

/-- Step 2 of source `createSchedule` (lines 68-74): dispatch each
pending job set to the external handler; a dispatch failure is given one
elevation retry (`retryElevated`, oracle `R`) and ends the command with
the retry outcome — later entries are not dispatched.  Oracle `D` is
the outcome of `scheduleJobs(schedule.NewHandler(cfg), jobs)`. -/
def dispatchJobs (D : String → List Schedule → Option GoError)
    (R : GoError → Option GoError) : List ProfileJobs → Option GoError × List Event
  | [] => (none, [])
  | j :: rest =>
    match D j.name j.jobs with
    | some e => (R e, [Event.scheduleJobs j.name j.jobs])
    | none =>
      let step := dispatchJobs D R rest
      (step.1, Event.scheduleJobs j.name j.jobs :: step.2)

/-- Source `createSchedule` (lines 23-77) applied to an explicit list of
selected names; the deferred `DisplayConfigurationIssues` runs on every
exit path. -/
def createScheduleFromNames (c : Config) (args : List String)
    (D : String → List Schedule → Option GoError) (R : GoError → Option GoError)
    (names : List String) : Option GoError × List Event :=
  let step :=
    match collectJobs c args names with
    | .error e => (some e, [])
    | .ok allJobs => dispatchJobs D R allJobs
  (step.1, step.2 ++ [Event.displayConfigIssues])

/-- Source `createSchedule` (lines 23-77): the create command. -/
def createSchedule (c : Config) (profileName : String) (args : List String)
    (D : String → List Schedule → Option GoError) (R : GoError → Option GoError) :
    Option GoError × List Event :=
  createScheduleFromNames c args D R (selectProfilesAndGroups c profileName args)

/-- Legacy-mode loop of source `removeSchedule` (lines 88-102): for each
selected name compute the removable job set (a resolution failure aborts
with that error); dispatch removal (oracle `Drm`), retry once with
elevation on failure (oracle `R`), and log — but keep going — when the
retry still fails. -/
def removeLoop (c : Config) (Drm : String → List Schedule → Option GoError)
    (R : GoError → Option GoError) : List String → Option GoError × List Event
  | [] => (none, [])
  | n :: rest =>
    match getRemovableScheduleJobs c n with
    | .error e => (some e, [])
    | .ok (_, jobs) =>
      let logEvs :=
        match Drm n jobs with
        | none => []
        | some e =>
          match R e with
          | none => []
          | some e2 => [Event.errorLog e2]
      let step := removeLoop c Drm R rest
      (step.1, Event.removeJobs n jobs :: logEvs ++ step.2)

/-- Source `removeSchedule` (lines 79-117).  Oracle `DrmAll` is the
outcome of `removeScheduledJobs` on the handler's recorded jobs for the
given profile filter ("" = all profiles). -/
def removeSchedule (c : Config) (profileName : String) (args : List String)
    (Drm : String → List Schedule → Option GoError)
    (DrmAll : String → Option GoError)
    (R : GoError → Option GoError) : Option GoError × List Event :=
  if args.contains "--legacy" then
    let step := removeLoop c Drm R (selectProfilesAndGroups c profileName args)
    (step.1, Event.warning legacyFlagWarning :: step.2)
  else
    let filter := if args.contains "--all" then "" else profileName
    match DrmAll filter with
    | some e => (R e, [Event.removeScheduledJobs filter])
    | none => (none, [Event.removeScheduledJobs filter])

/-- Source `statusScheduleProfileOrGroup` (lines 195-201): one status
report to the handler (oracle `Dst`), with one elevation retry (oracle
`R`) on failure. -/
def statusScheduleProfileOrGroup (Dst : String → List Schedule → Option GoError)
    (R : GoError → Option GoError) (schedules : List Schedule) (profileName : String) :
    Option GoError × List Event :=
  match Dst profileName schedules with
  | some e => (R e, [Event.statusJobs profileName schedules])
  | none => (none, [Event.statusJobs profileName schedules])

/-- Legacy --all loop of source `statusSchedule` (lines 145-161): a
resolution failure returns immediately with that error; a name with no
schedules is skipped; a failing status report is logged and the loop
continues with the next name. -/
def statusLoop (c : Config) (Dst : String → List Schedule → Option GoError)
    (R : GoError → Option GoError) : List String → Option GoError × List Event
  | [] => (none, [])
  | n :: rest =>
    match getScheduleJobs c n with
    | .error e => (some e, [])
    | .ok (_, schedules, schedulable) =>
      if schedules.isEmpty then statusLoop c Dst R rest
      else
        let report := statusScheduleProfileOrGroup Dst R schedules n
        let logEvs :=
          match report.1 with
          | some e2 => [Event.errorLog e2]
          | none => []
        let step := statusLoop c Dst R rest
        (step.1, Event.statusHeader schedulable.kind n :: report.2 ++ logEvs ++ step.2)

/-- Current-protocol part of source `statusSchedule` (lines 163-173):
report status of all recorded jobs matching the profile filter, with one
elevation retry on failure.  Oracle `DstAll` is the outcome of
`statusScheduledJobs`. -/
def statusCurrent (DstAll : String → Option GoError) (R : GoError → Option GoError)
    (filter : String) : Option GoError × List Event :=
  match DstAll filter with
  | some e => (R e, [Event.statusScheduledJobs filter])
  | none => (none, [Event.statusScheduledJobs filter])

/-- Source `statusSchedule` (lines 119-174).  With --legacy and no
--all, the function returns inside the legacy branch; with --legacy and
--all it falls through to the current protocol after the loop unless the
loop returned an error; without --legacy only the current protocol runs.
The deferred `DisplayConfigurationIssues` runs on every exit path. -/
def statusSchedule (c : Config) (profileName : String) (args : List String)
    (Dst : String → List Schedule → Option GoError)
    (DstAll : String → Option GoError)
    (R : GoError → Option GoError) : Option GoError × List Event :=
  let finish := fun (r : Option GoError) (evs : List Event) =>
    (r, evs ++ [Event.displayConfigIssues])
  if args.contains "--legacy" then
    if !args.contains "--all" then
      match getScheduleJobs c profileName with
      | .error e => finish (some e) [Event.warning legacyFlagWarning]
      | .ok (_, schedules, _) =>
        if schedules.isEmpty then
          finish none
            [Event.warning legacyFlagWarning,
             Event.warning ("profile or group " ++ profileName ++ " has no schedule")]
        else
          let report := statusScheduleProfileOrGroup Dst R schedules profileName
          finish report.1 (Event.warning legacyFlagWarning :: report.2)
    else
      let loop := statusLoop c Dst R (selectProfilesAndGroups c profileName args)
      match loop.1 with
      | some e => finish (some e) (Event.warning legacyFlagWarning :: loop.2)
      | none =>
        let filter := if args.contains "--all" then "" else profileName
        let current := statusCurrent DstAll R filter
        finish current.1 (Event.warning legacyFlagWarning :: loop.2 ++ current.2)
  else
    let filter := if args.contains "--all" then "" else profileName
    let current := statusCurrent DstAll R filter
    finish current.1 current.2

/-! ### Context rehydration (`preRunSchedule` / `prepareScheduledProfile`) -/

/-- Character-level split at the first separator occurrence. -/
def cutChars : List Char → Char → Option (List Char × List Char)
  | [], _ => none
  | ch :: rest, sep =>
    if ch = sep then some ([], rest)
    else
      match cutChars rest sep with
      | some (a, b) => some (ch :: a, b)
      | none => none

/-- Go `strings.Cut(s, sep)`: splits around the first occurrence of the
separator, returning `(before, after, found)`; when the separator is
absent the result is `(s, "", false)`. -/
def stringsCut (s : String) (sep : Char) : String × String × Bool :=
  match cutChars s.toList sep with
  | some (a, b) => (List.asString a, List.asString b, true)
  | none => (s, "", false)

/-- The slice of the run context that this core reads and writes
(request identity, the located schedule, and the override fields the
rehydrator may set). -/
structure Context where
  profile : String
  scheduleName : String
  command : String
  arguments : List String
  schedule : Option Schedule
  logTarget : String
  commandOutput : String
  stopOnBattery : Int
  lockWait : Int
  noLock : Bool
deriving DecidableEq, Repr

/-- Source `prepareScheduledProfile` (lines 323-346): derive the
execution-context overrides from the located schedule (log redirection,
battery-skip threshold, lock policy).  The source reads `ctx.schedule`,
which the caller has just set; it is only invoked with the schedule
present. -/
def prepareScheduledProfile (ctx : Context) : Context :=
  match ctx.schedule with
  | none => ctx
  | some s =>
    let ctx := if 0 < s.log.length then { ctx with logTarget := s.log } else ctx
    let ctx :=
      if 0 < s.commandOutput.length then { ctx with commandOutput := s.commandOutput }
      else ctx
    let ctx :=
      if 0 < s.ignoreOnBatteryLessThan ∧ IsStrictlyFalse s.ignoreOnBattery = false then
        { ctx with stopOnBattery := s.ignoreOnBatteryLessThan }
      else if IsTrue s.ignoreOnBattery = true then
        { ctx with stopOnBattery := 100 }
      else ctx
    if s.GetLockMode == .lockDefault then
      if 0 < s.GetLockWait then { ctx with lockWait := s.GetLockWait } else ctx
    else if s.GetLockMode == .lockIgnore then
      { ctx with noLock := true }
    else ctx

/-- Source `preRunSchedule` (lines 283-321): parse the
`<command>@<profile-or-group-name>` token, resolve the owner (profile
checked before group), look the command up in the owner's declared
schedules and, when found, rehydrate the context; when not found the
schedule field is left unset and the function still succeeds. -/
def preRunSchedule (c : Config) (ctx : Context) : Except GoError Context :=
  match ctx.arguments with
  | [] => .error (.msgf "run-schedule command expects one argument: schedule name")
  | scheduleName :: restArgs =>
    let cutResult := stringsCut scheduleName '@'
    if cutResult.2.2 = false then
      .error (.msgf "the expected format of the schedule name is <command>@<profile-or-group-name>")
    else
      let commandName := cutResult.1
      let profileName := cutResult.2.1
      let ctx := { ctx with
        profile := profileName, schedule := ctx.schedule,
        scheduleName := scheduleName, command := commandName,
        arguments := restArgs }
      let loaded : Except GoError Schedulable :=
        if c.HasProfile profileName then
          match c.GetProfile profileName with
          | .error e => .error (.wrapf ("cannot load profile \x27" ++ profileName ++ "\x27: ") e)
          | .ok profile => .ok profile
        else if c.HasProfileGroup profileName then
          match c.GetProfileGroup profileName with
          | .error e => .error (.wrapf ("cannot load group \x27" ++ profileName ++ "\x27: ") e)
          | .ok group => .ok group
        else
          .error (.wrapf ("profile or group \x22" ++ profileName ++ "\x22: ") .errNotFound)
      match loaded with
      | .error e => .error e
      | .ok schedulable =>
        match schedulable.lookupSchedule ctx.command with
        | some s => .ok (prepareScheduledProfile { ctx with schedule := some s })
        | none => .ok { ctx with schedule := none }

/-! ### Concrete fixtures (used by witnesses and counterexamples) -/

/-- A declared backup schedule of profile "prof1". -/
def schedBackup : Schedule :=
  { origin := ⟨"prof1", "backup"⟩, flags := [], log := "", commandOutput := "",
    ignoreOnBatteryLessThan := 0, ignoreOnBattery := none,
    lockMode := .lockDefault, lockWait := 0 }

/-- A declared backup schedule of profile "prof2". -/
def schedBackup2 : Schedule :=
  { origin := ⟨"prof2", "backup"⟩, flags := [], log := "", commandOutput := "",
    ignoreOnBatteryLessThan := 0, ignoreOnBattery := none,
    lockMode := .lockDefault, lockWait := 0 }

/-- A declared backup schedule of profile "prof4". -/
def schedBackup4 : Schedule :=
  { origin := ⟨"prof4", "backup"⟩, flags := [], log := "", commandOutput := "",
    ignoreOnBatteryLessThan := 0, ignoreOnBattery := none,
    lockMode := .lockDefault, lockWait := 0 }

/-- Profile "prof1": one declared schedule, one schedulable command. -/
def sb1 : Schedulable :=
  { kind := "profile", schedules := [("backup", schedBackup)],
    schedulableCommands := ["backup"] }

/-- Profile "prof2": one declared schedule, one schedulable command. -/
def sb2 : Schedulable :=
  { kind := "profile", schedules := [("backup", schedBackup2)],
    schedulableCommands := ["backup"] }

/-- Profile "prof4": one declared schedule out of three schedulable
commands (placeholder synthesis exercises). -/
def sb4 : Schedulable :=
  { kind := "profile", schedules := [("backup", schedBackup4)],
    schedulableCommands := ["backup", "check", "prune"] }

/-- Profile "empty": no declared schedules. -/
def sbEmpty : Schedulable :=
  { kind := "profile", schedules := [], schedulableCommands := [] }

/-- A working configuration with several profiles and no groups. -/
def cW : Config :=
  { globalErr := none,
    profiles := [("prof1", .ok sb1), ("prof2", .ok sb2),
                 ("prof4", .ok sb4), ("empty", .ok sbEmpty)],
    groups := [] }

/-- The empty configuration. -/
def cEmpty : Config := { globalErr := none, profiles := [], groups := [] }

/-- A configuration whose only group fails to load with `NotFound`. -/
def cGroupNF : Config :=
  { globalErr := none, profiles := [], groups := [("g", .error .errNotFound)] }

/-- A configuration whose only profile fails to load with a generic
(non-NotFound) error. -/
def cBad : Config :=
  { globalErr := none, profiles := [("bad", .error (.handler "corrupt"))], groups := [] }

/-- A fresh run context with no arguments and no overrides. -/
def ctx0 : Context :=
  { profile := "", scheduleName := "", command := "", arguments := [],
    schedule := none, logTarget := "", commandOutput := "",
    stopOnBattery := 0, lockWait := 0, noLock := false }

/-- A fresh run context carrying the given free arguments. -/
def mkCtx (args : List String) : Context := { ctx0 with arguments := args }

/-- Handler oracle that always succeeds. -/
def DnoErr : String → List Schedule → Option GoError := fun _ _ => none

/-- Handler oracle failing exactly for "prof1". -/
def DfailProf1 : String → List Schedule → Option GoError :=
  fun n _ => if n == "prof1" then some (.handler "boom") else none

/-- Recorded-jobs handler oracle that always succeeds. -/
def DA0 : String → Option GoError := fun _ => none

/-- Elevation retry oracle that passes every error through unchanged
(no permission problem). -/
def Rid : GoError → Option GoError := fun e => some e

/-! ### Helper lemmas -/

lemma errorsIs_wrapf (pfx : String) (e target : GoError) :
    errorsIs (.wrapf pfx e) target =
      ((GoError.wrapf pfx e == target) || errorsIs e target) := rfl

lemma wrapf_beq_errNotFound (pfx : String) (e : GoError) :
    (GoError.wrapf pfx e == GoError.errNotFound) = false := by
  rw [beq_eq_false_iff_ne]
  intro h
  cases h

lemma errorsIs_wrapf_errNotFound (pfx : String) (e : GoError) :
    errorsIs (.wrapf pfx e) .errNotFound = errorsIs e .errNotFound := by
  rw [errorsIs_wrapf, wrapf_beq_errNotFound, Bool.false_or]

lemma errorsIs_msgf_errNotFound (s : String) :
    errorsIs (.msgf s) .errNotFound = false := by
  show (GoError.msgf s == GoError.errNotFound) = false
  rw [beq_eq_false_iff_ne]
  intro h
  cases h

/-! ### Claim theorems -/

/-- C3 counterexample: with `--all` on a configuration whose profile and
group name lists are both empty, `selectProfilesAndGroups` does not
return the empty concatenation `profiles ++ groups = []`; the fallback
returns the requested name instead. -/
theorem selectProfilesAndGroups_all_empty_counterexample :
    selectProfilesAndGroups cEmpty "x" ["--all"] = ["x"] ∧
    selectProfilesAndGroups cEmpty "x" ["--all"] ≠
      cEmpty.GetProfileNames ++ cEmpty.GetGroupNames := by
  constructor
  · rfl
  · intro h
    simp [cEmpty, Config.GetProfileNames, Config.GetGroupNames,
      selectProfilesAndGroups] at h

/-- C3 (amended): with `--all`, `selectProfilesAndGroups` returns the
concatenation of all profile names then all group names whenever that
concatenation is non-empty; when both name lists are empty it falls back
to the single requested name, so the result is never empty. -/
theorem selectProfilesAndGroups_all_spec (c : Config) (profileName : String)
    (args : List String) (h : args.contains "--all" = true) :
    (c.GetProfileNames ++ c.GetGroupNames ≠ [] →
      selectProfilesAndGroups c profileName args =
        c.GetProfileNames ++ c.GetGroupNames) ∧
    (c.GetProfileNames ++ c.GetGroupNames = [] →
      selectProfilesAndGroups c profileName args = [profileName]) ∧
    selectProfilesAndGroups c profileName args ≠ [] := by
  unfold selectProfilesAndGroups
  rw [h]
  simp only [if_true]
  refine ⟨?_, ?_, ?_⟩
  · intro hne
    rw [if_neg]
    simp [List.isEmpty_iff, hne]
  · intro hemp
    rw [if_pos]
    simp [List.isEmpty_iff, hemp]
  · by_cases hemp : (c.GetProfileNames ++ c.GetGroupNames).isEmpty = true
    · rw [if_pos hemp]; simp
    · rw [if_neg hemp]
      simp [List.isEmpty_iff] at hemp ⊢
      exact hemp

/-- C3 (amended) witness at a concrete configuration and the empty one. -/
theorem selectProfilesAndGroups_all_spec_witness :
    (["--all"].contains "--all" = true) ∧
    selectProfilesAndGroups cW "x" ["--all"] =
      cW.GetProfileNames ++ cW.GetGroupNames ∧
    selectProfilesAndGroups cEmpty "x" ["--all"] = ["x"] := by
  refine ⟨rfl, ?_, ?_⟩
  · exact (selectProfilesAndGroups_all_spec cW "x" ["--all"] rfl).1 (by decide)
  · exact (selectProfilesAndGroups_all_spec cEmpty "x" ["--all"] rfl).2.1 (by decide)

/-- C7: after context rehydration from a located schedule, the
battery-stop threshold equals `ignoreOnBatteryLessThan` when that
threshold is positive and `ignoreOnBattery` is not strictly false;
otherwise it is 100 when `ignoreOnBattery` is strictly true; otherwise
it keeps its previous value (no battery override). -/
theorem prepareScheduledProfile_battery (ctx : Context) (s : Schedule) :
    (prepareScheduledProfile { ctx with schedule := some s }).stopOnBattery =
      (if 0 < s.ignoreOnBatteryLessThan ∧ IsStrictlyFalse s.ignoreOnBattery = false then
        s.ignoreOnBatteryLessThan
      else if IsTrue s.ignoreOnBattery = true then 100
      else ctx.stopOnBattery) := by
  unfold prepareScheduledProfile
  dsimp only
  split <;> split <;> split <;> split <;>
    first
      | rfl
      | (split <;> first | rfl | (split <;> rfl))

/-- C8 counterexample: when loading a declared group fails with
`NotFound`, the error the group path returns is a plain message (no
wrapping), so `errors.Is` against `config.ErrNotFound` does not match
— callers cannot branch on `NotFound` in the group load path. -/
theorem getGroupScheduleJobs_notFound_counterexample :
    getGroupScheduleJobs cGroupNF "g" =
      .error (.msgf ("group \x27g\x27 not found")) ∧
    errorsIs (.msgf ("group \x27g\x27 not found")) .errNotFound = false := by
  exact ⟨rfl, rfl⟩

/-- C8 (amended): a not-found load failure is wrapped distinctly from a
generic load failure in both paths, and the resulting message quotes the
profile or group name; in the profile path the `NotFound` error is
`%w`-wrapped so `errors.Is` still matches, but in the group path the
not-found case produces an unwrapped fixed message, so `errors.Is` does
not match there. -/
theorem scheduleJobs_notFound_wrapping (c : Config) (n : String) (e : GoError) :
    (c.GetProfile n = .error e → errorsIs e .errNotFound = true →
      getProfileScheduleJobs c n =
        .error (.wrapf ("profile \x27" ++ n ++ "\x27: ") e) ∧
      errorsIs (GoError.wrapf ("profile \x27" ++ n ++ "\x27: ") e) .errNotFound = true ∧
      errMessage (GoError.wrapf ("profile \x27" ++ n ++ "\x27: ") e) =
        "profile \x27" ++ n ++ "\x27: " ++ errMessage e) ∧
    (c.GetProfile n = .error e → errorsIs e .errNotFound = false →
      getProfileScheduleJobs c n =
        .error (.wrapf ("cannot load profile \x27" ++ n ++ "\x27: ") e)) ∧
    (c.GetProfileGroup n = .error e → errorsIs e .errNotFound = true →
      getGroupScheduleJobs c n =
        .error (.msgf ("group \x27" ++ n ++ "\x27 not found")) ∧
      errorsIs (GoError.msgf ("group \x27" ++ n ++ "\x27 not found")) .errNotFound = false ∧
      errMessage (GoError.msgf ("group \x27" ++ n ++ "\x27 not found")) =
        "group \x27" ++ n ++ "\x27 not found") ∧
    (c.GetProfileGroup n = .error e → errorsIs e .errNotFound = false →
      getGroupScheduleJobs c n =
        .error (.wrapf ("cannot load group \x27" ++ n ++ "\x27: ") e)) := by
  refine ⟨?_, ?_, ?_, ?_⟩
  · intro hp his
    refine ⟨?_, ?_, rfl⟩
    · simp [getProfileScheduleJobs, hp, his]
    · rw [errorsIs_wrapf_errNotFound, his]
  · intro hp his
    simp [getProfileScheduleJobs, hp, his]
  · intro hg his
    refine ⟨?_, errorsIs_msgf_errNotFound _, rfl⟩
    simp [getGroupScheduleJobs, hg, his]
  · intro hg his
    simp [getGroupScheduleJobs, hg, his]

/-- C8 (amended) witness: a profile whose load fails generically and a
group whose load fails with `NotFound`. -/
theorem scheduleJobs_notFound_wrapping_witness :
    (cBad.GetProfile "bad" = .error (.handler "corrupt") ∧
      getProfileScheduleJobs cBad "bad" =
        .error (.wrapf "cannot load profile \x27bad\x27: " (.handler "corrupt"))) ∧
    (cGroupNF.GetProfileGroup "g" = .error .errNotFound ∧
      getGroupScheduleJobs cGroupNF "g" =
        .error (.msgf "group \x27g\x27 not found") ∧
      errorsIs (GoError.msgf "group \x27g\x27 not found") .errNotFound = false ∧
      errMessage (GoError.msgf "group \x27g\x27 not found") =
        "group \x27g\x27 not found") := by
  refine ⟨⟨rfl, ?_⟩, ⟨rfl, ?_⟩⟩
  · exact (scheduleJobs_notFound_wrapping cBad "bad" (.handler "corrupt")).2.1 rfl rfl
  · exact (scheduleJobs_notFound_wrapping cGroupNF "g" .errNotFound).2.2.1 rfl rfl

lemma addUndeclared_eq (c : Config) (n : String) :
    ∀ (cmds : List String) (acc : List Schedule), cmds.Nodup →
      addUndeclared c n cmds acc =
        acc ++ (cmds.filter
          (fun cmd => !(acc.any (fun s => s.origin.command == cmd)))).map
          (fun cmd => NewDefaultSchedule c ⟨n, cmd⟩) := by
  intro cmds
  induction cmds with
  | nil => intro acc _; simp [addUndeclared]
  | cons cmd rest ih =>
    intro acc h
    rw [List.nodup_cons] at h
    obtain ⟨hnot, hrest⟩ := h
    by_cases hd : acc.any (fun s => s.origin.command == cmd) = true
    · rw [show addUndeclared c n (cmd :: rest) acc = addUndeclared c n rest acc from by
        simp [addUndeclared, hd]]
      rw [ih acc hrest]
      congr 1
      rw [List.filter_cons_of_neg]
      simp [hd]
    · rw [show addUndeclared c n (cmd :: rest) acc =
          addUndeclared c n rest (acc ++ [NewDefaultSchedule c ⟨n, cmd⟩]) from by
        simp [addUndeclared, hd]]
      rw [ih _ hrest]
      have hfeq : rest.filter
          (fun cmd2 => !((acc ++ [NewDefaultSchedule c ⟨n, cmd⟩]).any
            (fun s => s.origin.command == cmd2))) =
          rest.filter (fun cmd2 => !(acc.any (fun s => s.origin.command == cmd2))) := by
        apply List.filter_congr
        intro cmd2 hmem
        have hne : (cmd == cmd2) = false := by
          rw [beq_eq_false_iff_ne]
          intro hc
          exact hnot (hc ▸ hmem)
        simp [List.any_append, NewDefaultSchedule, hne]
      rw [hfeq]
      rw [List.filter_cons_of_pos (by simp [hd])]
      simp

lemma removable_origins_nodup (c : Config) (n : String) (ds : List Schedule)
    (cmds : List String) (hnodup : cmds.Nodup)
    (hds : (ds.map Schedule.origin).Nodup) :
    (((ds ++ (cmds.filter
        (fun cmd => !(ds.any (fun s => s.origin.command == cmd)))).map
        (fun cmd => NewDefaultSchedule c ⟨n, cmd⟩)).map Schedule.origin).Nodup) := by
  rw [List.map_append, List.nodup_append]
  refine ⟨hds, ?_, ?_⟩
  · rw [List.map_map]
    have hcomp : (Schedule.origin ∘ fun cmd => NewDefaultSchedule c ⟨n, cmd⟩) =
        fun cmd => (⟨n, cmd⟩ : ScheduleOrigin) := rfl
    rw [hcomp]
    apply List.Nodup.map
    · intro a b hab
      cases hab
      rfl
    · exact hnodup.filter _
  · intro o hds' hph
    rw [List.map_map, List.mem_map] at hph
    obtain ⟨cmd, hcmd, ho⟩ := hph
    rw [List.mem_filter] at hcmd
    obtain ⟨_, hnotdecl⟩ := hcmd
    rw [List.mem_map] at hds'
    obtain ⟨s, hs, hso⟩ := hds'
    have hcmdeq : s.origin.command = cmd := by
      rw [hso, ← ho]
      rfl
    have : ds.any (fun s => s.origin.command == cmd) = true := by
      rw [List.any_eq_true]
      exact ⟨s, hs, by simp [hcmdeq]⟩
    simp [this] at hnotdecl

/-- C4: the removable job set is the declared schedules, in order,
followed by exactly one synthesized placeholder — with origin
`(name, command)` and scheduler-default fields — for each schedulable
command matching no declared schedule origin; no two entries of the
result share an origin (given distinct declared origins and the
schedulable-commands ordered set). -/
theorem getRemovableScheduleJobs_spec (c : Config) (n : String)
    (ds : List Schedule) (sb : Schedulable)
    (h : getScheduleJobs c n = .ok ((), ds, sb))
    (hnodup : sb.schedulableCommands.Nodup)
    (hds : (ds.map Schedule.origin).Nodup) :
    getRemovableScheduleJobs c n =
      .ok ((), ds ++ (sb.schedulableCommands.filter
        (fun cmd => !(ds.any (fun s => s.origin.command == cmd)))).map
        (fun cmd => NewDefaultSchedule c ⟨n, cmd⟩)) ∧
    (((ds ++ (sb.schedulableCommands.filter
        (fun cmd => !(ds.any (fun s => s.origin.command == cmd)))).map
        (fun cmd => NewDefaultSchedule c ⟨n, cmd⟩)).map Schedule.origin).Nodup) := by
  constructor
  · unfold getRemovableScheduleJobs
    rw [h]
    dsimp only
    rw [addUndeclared_eq c n sb.schedulableCommands ds hnodup]
  · exact removable_origins_nodup c n ds sb.schedulableCommands hnodup hds

/-- C4 witness: profile "prof4" declares only "backup" out of
{backup, check, prune}; the removable set is the declared schedule plus
two placeholders, with pairwise distinct origins. -/
theorem getRemovableScheduleJobs_spec_witness :
    getScheduleJobs cW "prof4" = .ok ((), [schedBackup4], sb4) ∧
    sb4.schedulableCommands.Nodup ∧
    getRemovableScheduleJobs cW "prof4" =
      .ok ((), [schedBackup4] ++ (sb4.schedulableCommands.filter
        (fun cmd => !([schedBackup4].any (fun s => s.origin.command == cmd)))).map
        (fun cmd => NewDefaultSchedule cW ⟨"prof4", cmd⟩)) ∧
    ((([schedBackup4] ++ (sb4.schedulableCommands.filter
        (fun cmd => !([schedBackup4].any (fun s => s.origin.command == cmd)))).map
        (fun cmd => NewDefaultSchedule cW ⟨"prof4", cmd⟩)).map Schedule.origin).Nodup) := by
  have T := getRemovableScheduleJobs_spec cW "prof4" [schedBackup4] sb4 rfl
    (by decide) (by decide)
  exact ⟨rfl, by decide, T.1, T.2⟩

/-- A name fails to resolve in the create path: either `getScheduleJobs`
itself fails (NotFound or a load error), or it yields an empty job set
while "--all" is not among the arguments. -/
def resolutionFails (c : Config) (args : List String) (n : String) : Prop :=
  (∃ e, getScheduleJobs c n = .error e) ∨
  (∃ sb, getScheduleJobs c n = .ok ((), [], sb) ∧ args.contains "--all" = false)

lemma collectJobs_error_of_fails (c : Config) (args : List String) :
    ∀ names : List String, (∃ n ∈ names, resolutionFails c args n) →
      ∃ e, collectJobs c args names = .error e := by
  intro names
  induction names with
  | nil => rintro ⟨n, hn, _⟩; cases hn
  | cons n0 rest ih =>
    rintro ⟨n, hn, hf⟩
    rcases List.mem_cons.mp hn with h0 | hrest
    · subst h0
      rcases hf with ⟨e, he⟩ | ⟨sb, hok, hnall⟩
      · exact ⟨e, by simp [collectJobs, he]⟩
      · have hnall' : "--all" ∉ args := by simpa using hnall
        refine ⟨.msgf ("no schedule found for profile \x27" ++ n ++ "\x27"), ?_⟩
        simp [collectJobs, hok, requireScheduleJobs, hnall']
    · obtain ⟨e, he⟩ := ih ⟨n, hrest, hf⟩
      cases hg : getScheduleJobs c n0 with
      | error e0 => exact ⟨e0, by simp [collectJobs, hg]⟩
      | ok v =>
        obtain ⟨sc, jobs, sb⟩ := v
        cases hjobs : jobs.isEmpty with
        | true =>
          by_cases hall : "--all" ∈ args
          · refine ⟨e, ?_⟩
            simp [collectJobs, hg, requireScheduleJobs, hjobs, hall, he]
          · refine ⟨.msgf ("no schedule found for profile \x27" ++ n0 ++ "\x27"), ?_⟩
            simp [collectJobs, hg, requireScheduleJobs, hjobs, hall]
        | false =>
          refine ⟨e, ?_⟩
          simp [collectJobs, hg, requireScheduleJobs, hjobs, he]

/-- C1: in the create path, when any selected name fails to resolve
(NotFound, a load error, or an empty job set without "--all"), the whole
command fails and no job set is dispatched to the external handler's
create operation — no partial dispatch on resolution error. -/
theorem createSchedule_no_partial_dispatch (c : Config) (profileName : String)
    (args : List String) (D : String → List Schedule → Option GoError)
    (R : GoError → Option GoError)
    (h : ∃ n ∈ selectProfilesAndGroups c profileName args, resolutionFails c args n) :
    (createSchedule c profileName args D R).1.isSome = true ∧
    (createSchedule c profileName args D R).2.filter Event.isCreateDispatch = [] := by
  obtain ⟨e, he⟩ := collectJobs_error_of_fails c args _ h
  unfold createSchedule createScheduleFromNames
  rw [he]
  simp [Event.isCreateDispatch, List.filter]

/-- C1 witness: a single selected name that does not exist aborts the
create command with no dispatch. -/
theorem createSchedule_no_partial_dispatch_witness :
    (∃ n ∈ selectProfilesAndGroups cEmpty "missing" [],
      resolutionFails cEmpty [] n) ∧
    (createSchedule cEmpty "missing" [] DnoErr Rid).1.isSome = true ∧
    (createSchedule cEmpty "missing" [] DnoErr Rid).2.filter
      Event.isCreateDispatch = [] := by
  have hfail : ∃ n ∈ selectProfilesAndGroups cEmpty "missing" [],
      resolutionFails cEmpty [] n := by
    refine ⟨"missing", by decide, Or.inl ⟨.wrapf "profile or group \x27missing\x27: " .errNotFound, rfl⟩⟩
  exact ⟨hfail, createSchedule_no_partial_dispatch cEmpty "missing" [] DnoErr Rid hfail⟩

/-- C5: when a selected name resolves to an empty job set, the create
path skips it (continuing with the remaining names) when "--all" is
present, and fails with a no-schedule-found error naming that profile
when "--all" is absent. -/
theorem createSchedule_empty_jobs (c : Config) (n : String) (args : List String)
    (rest : List String) (sb : Schedulable)
    (D : String → List Schedule → Option GoError) (R : GoError → Option GoError)
    (h : getScheduleJobs c n = .ok ((), [], sb)) :
    (args.contains "--all" = true →
      collectJobs c args (n :: rest) = collectJobs c args rest ∧
      createScheduleFromNames c args D R (n :: rest) =
        createScheduleFromNames c args D R rest) ∧
    (args.contains "--all" = false →
      collectJobs c args (n :: rest) =
        .error (.msgf ("no schedule found for profile \x27" ++ n ++ "\x27"))) := by
  constructor
  · intro hall
    have hall' : "--all" ∈ args := by simpa using hall
    have hcoll : collectJobs c args (n :: rest) = collectJobs c args rest := by
      simp [collectJobs, h, requireScheduleJobs, hall']
    refine ⟨hcoll, ?_⟩
    unfold createScheduleFromNames
    rw [hcoll]
  · intro hnall
    have hnall' : "--all" ∉ args := by simpa using hnall
    simp [collectJobs, h, requireScheduleJobs, hnall']

/-- C5 witness: profile "empty" declares no schedules; with "--all" it
is skipped and the command proceeds with "prof1", without "--all" the
command fails with the no-schedule-found error naming "empty". -/
theorem createSchedule_empty_jobs_witness :
    getScheduleJobs cW "empty" = .ok ((), [], sbEmpty) ∧
    createScheduleFromNames cW ["--all"] DnoErr Rid ["empty", "prof1"] =
      createScheduleFromNames cW ["--all"] DnoErr Rid ["prof1"] ∧
    collectJobs cW [] ["empty"] =
      .error (.msgf "no schedule found for profile \x27empty\x27") := by
  refine ⟨rfl, ?_, ?_⟩
  · exact ((createSchedule_empty_jobs cW "empty" ["--all"] ["prof1"] sbEmpty
      DnoErr Rid rfl).1 rfl).2
  · exact (createSchedule_empty_jobs cW "empty" [] [] sbEmpty
      DnoErr Rid rfl).2 rfl

lemma removeLoop_all_ok (c : Config) (Drm : String → List Schedule → Option GoError)
    (R : GoError → Option GoError) :
    ∀ names : List String,
      (∀ n ∈ names, isOkE (getRemovableScheduleJobs c n) = true) →
      (removeLoop c Drm R names).1 = none ∧
      (∀ n ∈ names, ∃ jobs, Event.removeJobs n jobs ∈ (removeLoop c Drm R names).2) ∧
      (∀ n ∈ names, ∀ jobs e e2, getRemovableScheduleJobs c n = .ok ((), jobs) →
        Drm n jobs = some e → R e = some e2 →
        Event.errorLog e2 ∈ (removeLoop c Drm R names).2) := by
  intro names
  induction names with
  | nil => intro _; exact ⟨rfl, by simp, by simp⟩
  | cons n0 rest ih =>
    intro hok
    have hok0 := hok n0 (List.mem_cons_self n0 rest)
    have hokRest : ∀ n ∈ rest, isOkE (getRemovableScheduleJobs c n) = true :=
      fun n hn => hok n (List.mem_cons_of_mem n0 hn)
    obtain ⟨ihr, ihmem, ihlog⟩ := ih hokRest
    obtain ⟨jobs0, hjobs0⟩ : ∃ jobs, getRemovableScheduleJobs c n0 = .ok ((), jobs) := by
      cases hg : getRemovableScheduleJobs c n0 with
      | error e0 => rw [hg] at hok0; cases hok0
      | ok v =>
        obtain ⟨⟨⟩, jobs⟩ := v
        exact ⟨jobs, rfl⟩
    have hshape : removeLoop c Drm R (n0 :: rest) =
        ((removeLoop c Drm R rest).1,
          Event.removeJobs n0 jobs0 ::
            (match Drm n0 jobs0 with
              | none => []
              | some e =>
                match R e with
                | none => []
                | some e2 => [Event.errorLog e2]) ++
            (removeLoop c Drm R rest).2) := by
      simp [removeLoop, hjobs0]
    refine ⟨by rw [hshape]; exact ihr, ?_, ?_⟩
    · intro n hn
      rcases List.mem_cons.mp hn with h0 | hr
      · subst h0
        exact ⟨jobs0, by rw [hshape]; exact List.mem_cons_self _ _⟩
      · obtain ⟨jobs, hjobs⟩ := ihmem n hr
        refine ⟨jobs, ?_⟩
        rw [hshape]
        exact List.mem_cons_of_mem _ (List.mem_append_right _ hjobs)
    · intro n hn jobs e e2 hget hdrm hr2
      rcases List.mem_cons.mp hn with h0 | hr
      · subst h0
        rw [hget] at hjobs0
        have hje : jobs0 = jobs := by cases hjobs0; rfl
        subst hje
        rw [hshape]
        apply List.mem_cons_of_mem
        apply List.mem_append_left
        simp [hdrm, hr2]
      · have := ihlog n hr jobs e e2 hget hdrm hr2
        rw [hshape]
        exact List.mem_cons_of_mem _ (List.mem_append_right _ this)

/-- C6: in legacy remove, once every selected name resolves, the
command returns nil even when a remove dispatch fails after its
elevation retry; every selected name gets a remove dispatch, and each
dispatch failure is recorded in the diagnostic sink while processing
continues. -/
theorem removeSchedule_legacy_best_effort (c : Config) (profileName : String)
    (args : List String) (Drm : String → List Schedule → Option GoError)
    (DrmAll : String → Option GoError) (R : GoError → Option GoError)
    (hleg : args.contains "--legacy" = true)
    (hok : ∀ n ∈ selectProfilesAndGroups c profileName args,
      isOkE (getRemovableScheduleJobs c n) = true) :
    (removeSchedule c profileName args Drm DrmAll R).1 = none ∧
    (∀ n ∈ selectProfilesAndGroups c profileName args,
      ∃ jobs, Event.removeJobs n jobs ∈
        (removeSchedule c profileName args Drm DrmAll R).2) ∧
    (∀ n ∈ selectProfilesAndGroups c profileName args, ∀ jobs e e2,
      getRemovableScheduleJobs c n = .ok ((), jobs) → Drm n jobs = some e →
      R e = some e2 →
      Event.errorLog e2 ∈ (removeSchedule c profileName args Drm DrmAll R).2) := by
  have hleg' : "--legacy" ∈ args := by simpa using hleg
  obtain ⟨h1, h2, h3⟩ := removeLoop_all_ok c Drm R
    (selectProfilesAndGroups c profileName args) hok
  have hshape : removeSchedule c profileName args Drm DrmAll R =
      ((removeLoop c Drm R (selectProfilesAndGroups c profileName args)).1,
        Event.warning legacyFlagWarning ::
          (removeLoop c Drm R (selectProfilesAndGroups c profileName args)).2) := by
    simp [removeSchedule, hleg']
  rw [hshape]
  refine ⟨h1, ?_, ?_⟩
  · intro n hn
    obtain ⟨jobs, hjobs⟩ := h2 n hn
    exact ⟨jobs, List.mem_cons_of_mem _ hjobs⟩
  · intro n hn jobs e e2 hget hdrm hr2
    exact List.mem_cons_of_mem _ (h3 n hn jobs e e2 hget hdrm hr2)

/-- C6 witness: one profile whose remove dispatch fails (and whose
elevation retry passes the error through); the command still returns
nil, the dispatch happened, and the failure is logged. -/
theorem removeSchedule_legacy_best_effort_witness :
    (∀ n ∈ selectProfilesAndGroups cW "prof1" ["--legacy"],
      isOkE (getRemovableScheduleJobs cW n) = true) ∧
    (removeSchedule cW "prof1" ["--legacy"] DfailProf1 DA0 Rid).1 = none ∧
    Event.removeJobs "prof1" [schedBackup] ∈
      (removeSchedule cW "prof1" ["--legacy"] DfailProf1 DA0 Rid).2 ∧
    Event.errorLog (.handler "boom") ∈
      (removeSchedule cW "prof1" ["--legacy"] DfailProf1 DA0 Rid).2 := by
  have hok : ∀ n ∈ selectProfilesAndGroups cW "prof1" ["--legacy"],
      isOkE (getRemovableScheduleJobs cW n) = true := by decide
  have T := removeSchedule_legacy_best_effort cW "prof1" ["--legacy"]
    DfailProf1 DA0 Rid rfl hok
  refine ⟨hok, T.1, ?_, ?_⟩
  · exact by decide
  · exact T.2.2 "prof1" (by decide) [schedBackup] (.handler "boom") (.handler "boom")
      rfl rfl rfl

/-- C9: in the legacy status loop over all profiles and groups, a
resolution failure for a name aborts the whole command immediately with
that error (no events for that name, nothing processed after it, and the
command returns the error), while a failure of the per-name status
report itself is logged and the loop continues with the later names. -/
theorem statusSchedule_legacy_all_policy (c : Config)
    (Dst : String → List Schedule → Option GoError)
    (DstAll : String → Option GoError) (R : GoError → Option GoError)
    (n : String) (rest : List String) :
    (∀ e, getScheduleJobs c n = .error e →
      statusLoop c Dst R (n :: rest) = (some e, [])) ∧
    (∀ schedules sb e e2, getScheduleJobs c n = .ok ((), schedules, sb) →
      schedules.isEmpty = false → Dst n schedules = some e → R e = some e2 →
      statusLoop c Dst R (n :: rest) =
        ((statusLoop c Dst R rest).1,
          Event.statusHeader sb.kind n :: Event.statusJobs n schedules ::
            Event.errorLog e2 :: (statusLoop c Dst R rest).2)) ∧
    (∀ profileName args e evs, args.contains "--legacy" = true →
      args.contains "--all" = true →
      statusLoop c Dst R (selectProfilesAndGroups c profileName args) = (some e, evs) →
      statusSchedule c profileName args Dst DstAll R =
        (some e, Event.warning legacyFlagWarning :: evs ++ [Event.displayConfigIssues])) := by
  refine ⟨?_, ?_, ?_⟩
  · intro e he
    simp [statusLoop, he]
  · intro schedules sb e e2 hok hne hd hr
    simp [statusLoop, hok, hne, statusScheduleProfileOrGroup, hd, hr]
  · intro profileName args e evs hleg hall hloop
    have hleg' : "--legacy" ∈ args := by simpa using hleg
    have hall' : "--all" ∈ args := by simpa using hall
    simp [statusSchedule, hleg', hall', hloop]

/-- C9 witness: a configuration whose profile fails to load aborts the
legacy --all status loop (and the whole command) with that error, while
a failing status report for "prof1" is logged and processing reaches the
following name. -/
theorem statusSchedule_legacy_all_policy_witness :
    statusLoop cBad DnoErr Rid ["bad"] =
      (some (.wrapf "cannot load profile \x27bad\x27: " (.handler "corrupt")), []) ∧
    statusLoop cW DfailProf1 Rid ["prof1", "prof2"] =
      ((statusLoop cW DfailProf1 Rid ["prof2"]).1,
        Event.statusHeader "profile" "prof1" ::
          Event.statusJobs "prof1" [schedBackup] ::
          Event.errorLog (.handler "boom") ::
          (statusLoop cW DfailProf1 Rid ["prof2"]).2) ∧
    statusSchedule cBad "bad" ["--legacy", "--all"] DnoErr DA0 Rid =
      (some (.wrapf "cannot load profile \x27bad\x27: " (.handler "corrupt")),
        Event.warning legacyFlagWarning :: [] ++ [Event.displayConfigIssues]) := by
  refine ⟨?_, ?_, ?_⟩
  · exact (statusSchedule_legacy_all_policy cBad DnoErr DA0 Rid "bad" []).1 _ rfl
  · exact (statusSchedule_legacy_all_policy cW DfailProf1 DA0 Rid "prof1"
      ["prof2"]).2.1 [schedBackup] sb1 (.handler "boom") (.handler "boom")
      rfl rfl rfl rfl
  · exact (statusSchedule_legacy_all_policy cBad DnoErr DA0 Rid "bad" []).2.2
      "bad" ["--legacy", "--all"] _ [] rfl rfl (by decide)

lemma statusCurrent_snd (DstAll : String → Option GoError)
    (R : GoError → Option GoError) (filter : String) :
    (statusCurrent DstAll R filter).2 = [Event.statusScheduledJobs filter] := by
  cases h : DstAll filter <;> simp [statusCurrent, h]

/-- C2 counterexample: a successful status invocation with --legacy and
no --all (single-target legacy variant) runs no current-protocol status
report at all — the command returns inside the legacy branch. -/
theorem statusSchedule_current_counterexample :
    (statusSchedule cW "prof1" ["--legacy"] DnoErr DA0 Rid).1 = none ∧
    (statusSchedule cW "prof1" ["--legacy"] DnoErr DA0 Rid).2.filter
      Event.isCurrentStatus = [] := by
  exact ⟨rfl, rfl⟩

/-- C2 (amended): the current protocol (status of all recorded jobs
matching the profile filter, with one elevation retry) runs on every
invocation without --legacy, and with --legacy only in the --all variant
— provided the legacy loop finished without a resolution error; in the
single-target legacy variant the command returns after the legacy report
and the current protocol never runs. -/
theorem statusSchedule_current_protocol (c : Config) (profileName : String)
    (args : List String) (Dst : String → List Schedule → Option GoError)
    (DstAll : String → Option GoError) (R : GoError → Option GoError) :
    (args.contains "--legacy" = false →
      Event.statusScheduledJobs (if args.contains "--all" then "" else profileName) ∈
        (statusSchedule c profileName args Dst DstAll R).2) ∧
    (args.contains "--legacy" = true → args.contains "--all" = true →
      (statusLoop c Dst R (selectProfilesAndGroups c profileName args)).1 = none →
      Event.statusScheduledJobs "" ∈
        (statusSchedule c profileName args Dst DstAll R).2) ∧
    (args.contains "--legacy" = true → args.contains "--all" = false →
      (statusSchedule c profileName args Dst DstAll R).2.filter
        Event.isCurrentStatus = []) := by
  refine ⟨?_, ?_, ?_⟩
  · intro hnleg
    have hnleg' : "--legacy" ∉ args := by simpa using hnleg
    simp [statusSchedule, hnleg', statusCurrent_snd]
  · intro hleg hall hloop
    have hleg' : "--legacy" ∈ args := by simpa using hleg
    have hall' : "--all" ∈ args := by simpa using hall
    simp [statusSchedule, hleg', hall', hloop, statusCurrent_snd]
  · intro hleg hnall
    have hleg' : "--legacy" ∈ args := by simpa using hleg
    have hnall' : "--all" ∉ args := by simpa using hnall
    cases hg : getScheduleJobs c profileName with
    | error e =>
      simp [statusSchedule, hleg', hnall', hg, Event.isCurrentStatus, List.filter]
    | ok v =>
      obtain ⟨⟨⟩, schedules, sb⟩ := v
      cases hemp : schedules.isEmpty with
      | true =>
        simp [statusSchedule, hleg', hnall', hg, hemp, Event.isCurrentStatus,
          List.filter]
      | false =>
        cases hd : Dst profileName schedules with
        | none =>
          simp [statusSchedule, hleg', hnall', hg, hemp,
            statusScheduleProfileOrGroup, hd, Event.isCurrentStatus, List.filter]
        | some e =>
          simp [statusSchedule, hleg', hnall', hg, hemp,
            statusScheduleProfileOrGroup, hd, Event.isCurrentStatus, List.filter]

/-- C2 (amended) witness: the current protocol runs without --legacy
and with --legacy --all, but not in the single-target legacy variant. -/
theorem statusSchedule_current_protocol_witness :
    Event.statusScheduledJobs "prof1" ∈
      (statusSchedule cW "prof1" [] DnoErr DA0 Rid).2 ∧
    Event.statusScheduledJobs "" ∈
      (statusSchedule cW "prof1" ["--legacy", "--all"] DnoErr DA0 Rid).2 ∧
    (statusSchedule cW "prof1" ["--legacy"] DnoErr DA0 Rid).2.filter
      Event.isCurrentStatus = [] := by
  refine ⟨?_, ?_, ?_⟩
  · exact (statusSchedule_current_protocol cW "prof1" [] DnoErr DA0 Rid).1 rfl
  · exact (statusSchedule_current_protocol cW "prof1" ["--legacy", "--all"]
      DnoErr DA0 Rid).2.1 rfl rfl (by decide)
  · exact (statusSchedule_current_protocol cW "prof1" ["--legacy"]
      DnoErr DA0 Rid).2.2 rfl rfl

lemma GetProfile_ok_HasProfile (c : Config) (n : String) (p : Schedulable)
    (h : c.GetProfile n = .ok p) : c.HasProfile n = true := by
  unfold Config.GetProfile at h
  unfold Config.HasProfile
  cases hf : c.profiles.find? (fun q => q.1 == n) with
  | none => rw [hf] at h; cases h
  | some q => rfl

/-- C10: `preRunSchedule` raises a malformed-identity error only for a
missing argument or a token with no "@"; a token containing "@" is split
at its first occurrence even when either side is empty, so "cmd@"
proceeds to owner resolution and fails with `NotFound` for the empty
name, and "@owner" with a valid owner succeeds with rehydration skipped
(no schedule matches the empty command). -/
theorem preRunSchedule_identity_policy (c : Config) (ctx : Context) :
    (ctx.arguments = [] →
      preRunSchedule c ctx =
        .error (.msgf "run-schedule command expects one argument: schedule name")) ∧
    (∀ tok rest, ctx.arguments = tok :: rest → (stringsCut tok '@').2.2 = false →
      preRunSchedule c ctx =
        .error (.msgf "the expected format of the schedule name is <command>@<profile-or-group-name>")) ∧
    (∀ tok rest, ctx.arguments = tok :: rest → (stringsCut tok '@').2.2 = true →
      ∀ m, preRunSchedule c ctx ≠ .error (.msgf m)) ∧
    (∀ tok rest cmd, ctx.arguments = tok :: rest → stringsCut tok '@' = (cmd, "", true) →
      c.HasProfile "" = false → c.HasProfileGroup "" = false →
      preRunSchedule c ctx =
        .error (.wrapf "profile or group \x22\x22: " .errNotFound)) ∧
    (∀ tok rest owner p, ctx.arguments = tok :: rest →
      stringsCut tok '@' = ("", owner, true) →
      c.GetProfile owner = .ok p → p.lookupSchedule "" = none →
      preRunSchedule c ctx = .ok { ctx with
        profile := owner, scheduleName := tok, command := "",
        arguments := rest, schedule := none }) := by
  refine ⟨?_, ?_, ?_, ?_, ?_⟩
  · intro hargs
    simp [preRunSchedule, hargs]
  · intro tok rest hargs hcut
    simp [preRunSchedule, hargs, hcut]
  · intro tok rest hargs hcut m
    unfold preRunSchedule
    rw [hargs]
    dsimp only
    rw [if_neg (by simp [hcut])]
    by_cases hp : c.HasProfile (stringsCut tok '@').2.1 = true
    · rw [if_pos hp]
      cases hg : c.GetProfile (stringsCut tok '@').2.1 with
      | error e => simp [hg]
      | ok profile =>
        cases hl : profile.lookupSchedule (stringsCut tok '@').1 with
        | some s => simp [hg, hl]
        | none => simp [hg, hl]
    · rw [if_neg hp]
      by_cases hgr : c.HasProfileGroup (stringsCut tok '@').2.1 = true
      · rw [if_pos hgr]
        cases hg : c.GetProfileGroup (stringsCut tok '@').2.1 with
        | error e => simp [hg]
        | ok group =>
          cases hl : group.lookupSchedule (stringsCut tok '@').1 with
          | some s => simp [hg, hl]
          | none => simp [hg, hl]
      · rw [if_neg hgr]
        simp
  · intro tok rest cmd hargs hcut hp hgr
    unfold preRunSchedule
    rw [hargs]
    dsimp only
    rw [if_neg (by simp [hcut])]
    rw [hcut]
    dsimp only
    rw [if_neg (by simp [hp]), if_neg (by simp [hgr])]
    simp
  · intro tok rest owner p hargs hcut hget hlook
    have hp : c.HasProfile owner = true := GetProfile_ok_HasProfile c owner p hget
    unfold preRunSchedule
    rw [hargs]
    dsimp only
    rw [if_neg (by simp [hcut])]
    rw [hcut]
    dsimp only
    rw [if_pos hp, hget]
    dsimp only
    rw [hlook]

/-- C10 witness: the four concrete behaviors — missing argument, token
without "@", token "backup@" (NotFound for the empty owner), and token
"@prof1" (success with rehydration skipped). -/
theorem preRunSchedule_identity_policy_witness :
    preRunSchedule cW ctx0 =
      .error (.msgf "run-schedule command expects one argument: schedule name") ∧
    preRunSchedule cW (mkCtx ["backup"]) =
      .error (.msgf "the expected format of the schedule name is <command>@<profile-or-group-name>") ∧
    preRunSchedule cEmpty (mkCtx ["backup@"]) =
      .error (.wrapf "profile or group \x22\x22: " .errNotFound) ∧
    preRunSchedule cW (mkCtx ["@prof1"]) = .ok { mkCtx ["@prof1"] with
      profile := "prof1", scheduleName := "@prof1", command := "",
      arguments := [], schedule := none } := by
  refine ⟨?_, ?_, ?_, ?_⟩
  · exact (preRunSchedule_identity_policy cW ctx0).1 rfl
  · exact (preRunSchedule_identity_policy cW (mkCtx ["backup"])).2.1
      "backup" [] rfl (by decide)
  · exact (preRunSchedule_identity_policy cEmpty (mkCtx ["backup@"])).2.2.2.1
      "backup@" [] "backup" rfl (by decide) rfl rfl
  · exact (preRunSchedule_identity_policy cW (mkCtx ["@prof1"])).2.2.2.2
      "@prof1" [] "prof1" sb1 rfl (by decide) rfl rfl

end ResticSchedule
